import Mathlib

/-!
Verification of the TurboTesting library (TypeScript sources) against its
natural-language specification.  The TypeScript managers are shallowly
embedded: strings become lists of characters, JavaScript string-search
primitives are reproduced exactly (including `indexOf` returning -1 and the
`indexOf(pat, len - pat.len)` ends-with idiom), the callback-driven
recursive orchestrators become structurally recursive Lean functions that
thread the accumulated-error list, and the browser / HTTP / filesystem
environments become explicit data supplied to the model functions.
-/

/-- JavaScript strings are modelled as lists of characters. -/
abbrev Str := List Char

/-- Embed a Lean string literal as a character list. -/
def str (s : String) : Str := s.toList

/-- The newline character used by the error-message templates. -/
def nl : Str := ['\n']

/-- An apostrophe character (used by one diagnostic template). -/
def apos : Str := [Char.ofNat 39]

/-- JavaScript `Error.prototype.toString()`: the string `"Error: "` followed
by the error message.  The orchestrators push `e.toString()` of caught
exceptions onto their accumulated-error lists. -/
def errToString (m : Str) : Str := str "Error: " ++ m

/-- Decimal rendering of a natural number (JS number-to-string coercion in
template literals). -/
def natToStr (n : Nat) : Str := (Nat.repr n).toList

/-- Decimal rendering of an integer. -/
def intToStr (i : Int) : Str := (Int.repr i).toList

/-- First index at which `pat` occurs in the scanned list, if any
(the core of JavaScript `String.prototype.indexOf`). -/
def firstIndexOf (pat : Str) : Str → Option Nat
  | [] => if pat.isPrefixOf ([] : Str) then some 0 else none
  | c :: rest =>
      if pat.isPrefixOf (c :: rest) then some 0
      else (firstIndexOf pat rest).map (· + 1)

/-- JavaScript `text.indexOf(pat)`: the first occurrence index, or -1. -/
def jsIndexOf (text pat : Str) : Int :=
  match firstIndexOf pat text with
  | some i => (i : Int)
  | none => -1

/-- `pat` occurs somewhere inside `text`. -/
def occursB (text pat : Str) : Bool := (firstIndexOf pat text).isSome

/-- JavaScript `text.indexOf(pat, fromIndex)` with a possibly negative
`fromIndex` (negative values are clamped to 0, as in JS). -/
def jsIndexOfFrom (text pat : Str) (fromIndex : Int) : Int :=
  let start := fromIndex.toNat
  match firstIndexOf pat (text.drop start) with
  | some i => ((start + i : Nat) : Int)
  | none => -1

/-- turbocommons `ArrayUtils.hasDuplicateElements` on string lists: true iff
some value appears at least twice. -/
def hasDuplicateElements : List Str → Bool
  | [] => false
  | x :: rest => rest.contains x || hasDuplicateElements rest

/-- turbocommons `ArrayUtils.getDuplicateElements` on string lists, modelled
by its documented behaviour: the values that appear more than once. -/
def getDuplicateElements (l : List Str) : List Str :=
  (l.filter (fun x => 1 < l.count x)).dedup

/-- JavaScript `Array.prototype.join(sep)`. -/
def joinWith (sep : Str) : List Str → Str
  | [] => []
  | [x] => x
  | x :: y :: rest => x ++ sep ++ joinWith sep (y :: rest)

/-- Worker for `replaceAll`.  The counter skips over the remaining
characters of a match that has just been replaced, so the replacement is
the usual left-to-right, non-overlapping, single-pass one. -/
def replaceAllAux (search repl : Str) : Str → Nat → Str
  | [], _ => []
  | _ :: rest, Nat.succ k => replaceAllAux search repl rest k
  | c :: rest, 0 =>
      if search ≠ [] ∧ search.isPrefixOf (c :: rest) then
        repl ++ replaceAllAux search repl rest (search.length - 1)
      else
        c :: replaceAllAux search repl rest 0

/-- turbocommons `StringUtils.replace(text, search, repl)` restricted to a
single search value: replace every (non-overlapping, left-to-right)
occurrence of `search` inside `text` by `repl`.  An empty search value
leaves the text unchanged. -/
def replaceAll (search repl text : Str) : Str := replaceAllAux search repl text 0

/-- `StringTestsManager.replaceWildCardsOnText`: fold the wildcard table
over the text, replacing every occurrence of each key (in table order) by
its value. -/
def replaceWildCardsOnText (text : Str) (wildcards : List (Str × Str)) : Str :=
  wildcards.foldl (fun acc kv => replaceAll kv.1 kv.2 acc) text

/-- A JavaScript `string | string[]` argument. -/
inductive StrOrList where
  | s (v : Str)
  | l (vs : List Str)

/-- The fragment list a `string | string[]` argument denotes: a bare string
is treated as a one-element list, as the source does via
`ArrayUtils.isArray(toBeFound) ? toBeFound : [String(toBeFound)]`. -/
def fragmentsOf : StrOrList → List Str
  | .s v => [v]
  | .l vs => vs

/-- `StringTestsManager.replaceWildCardsOnObject` restricted to its two
implemented cases (a string, or an array of strings). -/
def replaceWildCardsOnObject (o : StrOrList) (wildcards : List (Str × Str)) : StrOrList :=
  match o with
  | .s v => .s (replaceWildCardsOnText v wildcards)
  | .l vs => .l (vs.map (replaceWildCardsOnText · wildcards))

/-- `fs` all appear inside `m`, disjointly and in the given order. -/
def AppearsInOrder : List Str → Str → Prop
  | [], _ => True
  | f :: fs, m => ∃ p q, m = p ++ f ++ q ∧ AppearsInOrder fs q

theorem appearsInOrder_append_joinWith (sep : Str) :
    ∀ (fs : List Str) (pre : Str), AppearsInOrder fs (pre ++ joinWith sep fs) := by
  intro fs
  induction fs with
  | nil => intro pre; trivial
  | cons f rest ih =>
      intro pre
      cases rest with
      | nil =>
          refine ⟨pre, [], ?_, trivial⟩
          simp [joinWith]
      | cons g t =>
          refine ⟨pre, sep ++ joinWith sep (g :: t), ?_, ?_⟩
          · simp [joinWith]
          · exact ih sep

theorem infix_of_mem_joinWith (sep : Str) :
    ∀ (fs : List Str) (pre a : Str), a ∈ fs → a <:+: pre ++ joinWith sep fs := by
  intro fs
  induction fs with
  | nil => intro pre a h; cases h
  | cons f rest ih =>
      intro pre a h
      rcases List.mem_cons.mp h with h | h
      · subst h
        cases rest with
        | nil => exact ⟨pre, [], by simp [joinWith]⟩
        | cons g t => exact ⟨pre, sep ++ joinWith sep (g :: t), by simp [joinWith]⟩
      · cases rest with
        | nil => cases h
        | cons g t =>
            have := ih (pre ++ f ++ sep) a h
            simpa [joinWith] using this

/-! ## StringTestsManager (console variant, `ObjectTestsManager.ts` second half)

Each assertion returns the boolean result the source returns, paired with
the list of diagnostic strings reported through the console manager. -/

/-- `pat` occurs in `text` starting exactly at index `i`. -/
def occursAt (text pat : Str) (i : Nat) : Bool := pat.isPrefixOf (text.drop i)

/-- The default message template of `assertTextContainsAll`. -/
def defaultContainsMsg : Str :=
  str "Text expected to contain: $fragment" ++ nl ++ str "But it didn" ++ apos ++ str "t"

/-- The order-violation diagnostic of `assertTextContainsAll`. -/
def orderErrMsg (frag : Str) : Str :=
  str "The following string was found on text, but does not follow the expected strict order: " ++ frag

/-- JavaScript `Math.max.apply(null, indexes)`; the source only calls it on
nonempty lists (the current index has just been pushed). -/
def maxIndexFound : List Int → Int
  | [] => -1
  | x :: rest => rest.foldl max x

/-- The fragment loop of `StringTestsManager.assertTextContainsAll`,
threading the `indexesFound` array, the `anyErrors` counter and the
console-error list. -/
def assertTextContainsAllLoop (text message : Str) (strictOrder : Bool) :
    List Str → List Int → Nat → List Str → Nat × List Str
  | [], _, anyErrors, errs => (anyErrors, errs)
  | frag :: rest, indexesFound, anyErrors, errs =>
      let idx := jsIndexOf text frag
      let indexes := indexesFound ++ [idx]
      let e1 : Nat := if idx < 0 then 1 else 0
      let m1 : List Str := if idx < 0 then [replaceAll (str "$fragment") frag message] else []
      let e2 : Nat := if strictOrder = true ∧ idx < maxIndexFound indexes then 1 else 0
      let m2 : List Str :=
        if strictOrder = true ∧ idx < maxIndexFound indexes then [orderErrMsg frag] else []
      assertTextContainsAllLoop text message strictOrder rest indexes (anyErrors + e1 + e2) (errs ++ m1 ++ m2)

/-- `StringTestsManager.assertTextContainsAll`: true iff no error was
counted, together with the reported console errors. -/
def assertTextContainsAll (text : Str) (toBeFound : StrOrList) (message : Str)
    (strictOrder : Bool) : Bool × List Str :=
  let fragmentsArray := fragmentsOf toBeFound
  let msg := if message = [] then defaultContainsMsg else message
  let r := assertTextContainsAllLoop text msg strictOrder fragmentsArray [] 0 []
  (r.1 == 0, r.2)

/-- `StringTestsManager.assertTextStartsWith`: the source tests
`text.lastIndexOf(mustStartWith, 0) !== 0`, which holds exactly when
`mustStartWith` is not a prefix of `text`. -/
def assertTextStartsWith (text mustStartWith message : Str) : Bool × List Str :=
  if mustStartWith.isPrefixOf text then (true, [])
  else (false, [replaceAll (str "$fragment") mustStartWith message])

/-- `StringTestsManager.assertTextEndsWith`: the source tests
`text.indexOf(mustEndWith, text.length - mustEndWith.length) === -1`. -/
def assertTextEndsWith (text mustEndWith message : Str) : Bool × List Str :=
  if jsIndexOfFrom text mustEndWith ((text.length : Int) - (mustEndWith.length : Int)) = -1 then
    (false, [replaceAll (str "$fragment") mustEndWith message])
  else (true, [])

/-- The fragment loop of `StringTestsManager.assertTextNotContainsAny`. -/
def assertTextNotContainsAnyLoop (text message : Str) : List Str → List Str
  | [] => []
  | frag :: rest =>
      (if 0 ≤ jsIndexOf text frag then [replaceAll (str "$fragment") frag message] else [])
        ++ assertTextNotContainsAnyLoop text message rest

/-- `StringTestsManager.assertTextNotContainsAny`: true iff no fragment was
found, together with the reported console errors (one per found fragment,
matching the `anyErrors` counter of the source). -/
def assertTextNotContainsAny (text : Str) (notToBeFound : StrOrList) (message : Str) :
    Bool × List Str :=
  let errs := assertTextNotContainsAnyLoop text message (fragmentsOf notToBeFound)
  (errs.isEmpty, errs)

/-! ## C3: strict-order behaviour of `assertTextContainsAll` -/

theorem foldl_max_le_int :
    ∀ (l : List Int) (y x : Int), y ≤ x → (∀ j ∈ l, j ≤ x) → (l ++ [x]).foldl max y = x := by
  intro l
  induction l with
  | nil => intro y x hy _; simpa using max_eq_right hy
  | cons j t ih =>
      intro y x hy hall
      simp only [List.cons_append, List.foldl_cons]
      exact ih (max y j) x (max_le hy (hall j (by simp))) (fun a ha => hall a (by simp [ha]))

theorem maxIndexFound_append (l : List Int) (x : Int) (h : ∀ j ∈ l, j ≤ x) :
    maxIndexFound (l ++ [x]) = x := by
  cases l with
  | nil => simp [maxIndexFound]
  | cons y t =>
      simp only [List.cons_append, maxIndexFound]
      exact foldl_max_le_int t y x (h y (by simp)) (fun a ha => h a (by simp [ha]))

theorem assertTextContainsAllLoop_clean (text message : Str) :
    ∀ (frags : List Str) (indexes : List Int) (acc : Nat) (errs : List Str),
      (∀ f ∈ frags, 0 ≤ jsIndexOf text f) →
      List.Chain' (fun a b => a ≤ b) (frags.map (jsIndexOf text)) →
      (∀ j ∈ indexes, ∀ f, frags.head? = some f → j ≤ jsIndexOf text f) →
      assertTextContainsAllLoop text message true frags indexes acc errs = (acc, errs) := by
  intro frags
  induction frags with
  | nil => intro indexes acc errs _ _ _; rfl
  | cons frag rest ih =>
      intro indexes acc errs hfound hchain h3
      have hidx : 0 ≤ jsIndexOf text frag := hfound frag (by simp)
      have hmax : maxIndexFound (indexes ++ [jsIndexOf text frag]) = jsIndexOf text frag :=
        maxIndexFound_append _ _ (fun j hj => h3 j hj frag rfl)
      have hstep : assertTextContainsAllLoop text message true (frag :: rest) indexes acc errs
          = assertTextContainsAllLoop text message true rest
              (indexes ++ [jsIndexOf text frag]) acc errs := by
        simp only [assertTextContainsAllLoop]
        simp [hmax, show ¬ jsIndexOf text frag < 0 from not_lt.mpr hidx]
      rw [hstep]
      have hchain' : List.Chain' (fun a b => a ≤ b) (rest.map (jsIndexOf text)) := by
        simpa using hchain.tail
      have hhead : ∀ f, rest.head? = some f → jsIndexOf text frag ≤ jsIndexOf text f := by
        intro f hf
        have h := (List.chain'_cons'.mp (by simpa using hchain)).1
        exact h (jsIndexOf text f) (by simp [List.head?_map, hf])
      refine ih (indexes ++ [jsIndexOf text frag]) acc errs
        (fun f hf => hfound f (by simp [hf])) hchain' ?_
      intro j hj f hf
      rcases List.mem_append.mp hj with hj | hj
      · exact le_trans (h3 j hj frag rfl) (hhead f hf)
      · have : j = jsIndexOf text frag := by simpa using hj
        exact this ▸ hhead f hf

/-- C3 counterexample: in the text `"aba"` the fragments `"b"` and `"a"` do
occur in the given relative order (at positions 1 and 2), yet
`assertTextContainsAll` with `strictOrder = true` returns `false`, because
it compares first-occurrence positions only (the first `"a"` is at
position 0). -/
theorem assertTextContainsAll_relative_order_counterexample :
    occursAt (str "aba") (str "b") 1 = true ∧
    occursAt (str "aba") (str "a") 2 = true ∧
    (1 : Nat) ≤ 2 ∧
    (assertTextContainsAll (str "aba") (.l [str "b", str "a"]) [] true).1 = false := by
  decide

/-- C3 (amended): with `strictOrder = true`, `assertTextContainsAll`
succeeds (returns `true` with no reported error) whenever every fragment
occurs in the text and the fragments' first-occurrence positions are
non-decreasing in list order; and for a two-fragment list where both
fragments occur but their first-occurrence positions are out of order, it
fails, reporting exactly the order-violation diagnostic, which differs from
every not-found diagnostic built from the default message template. -/
theorem assertTextContainsAll_strict_order_spec (text message : Str) :
    (∀ frags : List Str,
       (∀ f ∈ frags, 0 ≤ jsIndexOf text f) →
       List.Chain' (fun a b => a ≤ b) (frags.map (jsIndexOf text)) →
       assertTextContainsAll text (.l frags) message true = (true, [])) ∧
    (∀ f1 f2 : Str,
       0 ≤ jsIndexOf text f1 → 0 ≤ jsIndexOf text f2 →
       jsIndexOf text f2 < jsIndexOf text f1 →
       assertTextContainsAll text (.l [f1, f2]) message true = (false, [orderErrMsg f2]) ∧
       ∀ g : Str, orderErrMsg f2 ≠ replaceAll (str "$fragment") g defaultContainsMsg) := by
  constructor
  · intro frags hfound hchain
    unfold assertTextContainsAll
    simp only [fragmentsOf]
    rw [assertTextContainsAllLoop_clean text _ frags [] 0 [] hfound hchain
      (fun j hj => absurd hj (List.not_mem_nil j))]
    rfl
  · intro f1 f2 hf1 hf2 h21
    have h1 : ¬ jsIndexOf text f1 < 0 := not_lt.mpr hf1
    have h2 : ¬ jsIndexOf text f2 < 0 := not_lt.mpr hf2
    constructor
    · have hmax1 : maxIndexFound [jsIndexOf text f1] = jsIndexOf text f1 := by
        simp [maxIndexFound]
      have hmax2 : maxIndexFound [jsIndexOf text f1, jsIndexOf text f2] = jsIndexOf text f1 := by
        simp [maxIndexFound, max_eq_left (le_of_lt h21)]
      simp only [assertTextContainsAll, fragmentsOf, assertTextContainsAllLoop]
      simp [hmax1, hmax2, h1, h2, h21]
    · intro g h
      exact absurd (show (str "Th") = str "Te" from congrArg (fun l : Str => l.take 2) h)
        (by decide)

/-- Witness for `assertTextContainsAll_strict_order_spec` at the concrete
inputs used by the repository's own test suite. -/
theorem assertTextContainsAll_strict_order_spec_witness :
    assertTextContainsAll (str "hello") (.l [str "h", str "e", str "o"]) [] true = (true, []) ∧
    assertTextContainsAll (str "hello") (.l [str "e", str "h"]) [] true
      = (false, [orderErrMsg (str "h")]) :=
  ⟨(assertTextContainsAll_strict_order_spec (str "hello") []).1
      [str "h", str "e", str "o"] (by decide)
      (by simp only [List.map, List.chain'_cons, List.chain'_singleton, and_true]; decide),
   ((assertTextContainsAll_strict_order_spec (str "hello") []).2
      (str "e") (str "h") (by decide) (by decide) (by decide)).1⟩

/-! ## C9: wildcard substitution -/

theorem replaceAllAux_zero_of_not_occurs (search repl : Str) :
    ∀ s : Str, firstIndexOf search s = none → replaceAllAux search repl s 0 = s := by
  intro s
  induction s with
  | nil => intro _; rfl
  | cons c rest ih =>
      intro h
      simp only [firstIndexOf] at h
      by_cases hp : search.isPrefixOf (c :: rest)
      · simp [hp] at h
      · simp only [hp, if_false, Bool.false_eq_true, Option.map_eq_none'] at h
        simp [replaceAllAux, hp, ih h]

theorem replaceAll_of_not_occurs (search repl s : Str) (h : occursB s search = false) :
    replaceAll search repl s = s := by
  have hn : firstIndexOf search s = none := by
    unfold occursB at h
    cases hx : firstIndexOf search s <;> simp [hx] at h ⊢
  exact replaceAllAux_zero_of_not_occurs search repl s hn

theorem replaceWildCardsOnText_id :
    ∀ (W : List (Str × Str)) (T : Str),
      (∀ kv ∈ W, occursB T kv.1 = false) → replaceWildCardsOnText T W = T := by
  intro W
  induction W with
  | nil => intro T _; rfl
  | cons kv rest ih =>
      intro T h
      unfold replaceWildCardsOnText
      simp only [List.foldl_cons]
      rw [replaceAll_of_not_occurs kv.1 kv.2 T (h kv (by simp))]
      exact ih T (fun p hp => h p (by simp [hp]))

/-- C9 counterexample: with the single-entry table sending `"ab"` to `"b"`
(no replacement value contains a key), substitution on `"aab"` yields
`"ab"`, and a second application yields `"b"`, so substitution is not
idempotent under the claim's hypothesis. -/
theorem replaceWildCardsOnText_idempotence_counterexample :
    occursB (str "b") (str "ab") = false ∧
    replaceWildCardsOnText (str "aab") [(str "ab", str "b")] = str "ab" ∧
    replaceWildCardsOnText (replaceWildCardsOnText (str "aab") [(str "ab", str "b")])
        [(str "ab", str "b")]
      ≠ replaceWildCardsOnText (str "aab") [(str "ab", str "b")] := by
  decide

/-- C9 (amended): `replaceWildCardsOnText` leaves a text containing no key
of the table unchanged; consequently a second application is the identity
whenever the first application's result contains no key of the table (the
original claim's hypothesis — no replacement value contains a key — does
not suffice, because a replacement can create a new key occurrence at a
boundary). -/
theorem replaceWildCardsOnText_spec (T : Str) (W : List (Str × Str)) :
    ((∀ kv ∈ W, occursB T kv.1 = false) → replaceWildCardsOnText T W = T) ∧
    ((∀ kv ∈ W, occursB (replaceWildCardsOnText T W) kv.1 = false) →
      replaceWildCardsOnText (replaceWildCardsOnText T W) W = replaceWildCardsOnText T W) :=
  ⟨fun h => replaceWildCardsOnText_id W T h,
   fun h => replaceWildCardsOnText_id W (replaceWildCardsOnText T W) h⟩

/-- Witness for `replaceWildCardsOnText_spec` at a concrete table. -/
theorem replaceWildCardsOnText_spec_witness :
    replaceWildCardsOnText (str "hello") [(str "$x", str "1")] = str "hello" :=
  (replaceWildCardsOnText_spec (str "hello") [(str "$x", str "1")]).1 (by decide)

/-! ## Throwing StringTestsManager variant

The second-generation managers (`HTTPTestsManager.ts` lines 263-502 and the
`AutomatedBrowserManager` of `src/unnamed/part_002`) call a throwing
`StringTestsManager` whose implementation file is not under `src/`; only
its test suite is.  The checkers below model it from the spec: they perform
the same checks as the console variant embedded above and, on failure,
produce the `e.toString()` string that the callers' `catch` blocks push
onto their accumulated-error lists. -/

/-- Modelled from the spec: the aggregate throw message of the missing
throwing `StringTestsManager`; its format is pinned by the repository's
test suite (`AutomatedBrowserManager.<method> failed with <n> errors`). -/
def throwMsg (method : Str) (errs : List Str) : Str :=
  errToString (str "AutomatedBrowserManager." ++ method ++ str " failed with "
    ++ natToStr errs.length ++ str " errors:" ++ nl ++ joinWith nl errs)

/-- Modelled from the spec: throwing `assertTextContainsAll` (strict order,
the callers never pass `strictOrder`); `none` on success, `some e` with the
caught `e.toString()` on failure. -/
def checkContainsAll (text : Str) (toBeFound : StrOrList) (message : Str) : Option Str :=
  match assertTextContainsAll text toBeFound message true with
  | (true, _) => none
  | (false, errs) => some (throwMsg (str "assertTextContainsAll") errs)

/-- Modelled from the spec: throwing `assertTextStartsWith`; on failure the
thrown message is the template with `$fragment` replaced by the expected
prefix and `$startedWith` by the first 40 characters of the text. -/
def checkStartsWith (text mustStartWith message : Str) : Option Str :=
  if mustStartWith.isPrefixOf text then none
  else some (errToString (replaceAll (str "$startedWith") (text.take 40)
      (replaceAll (str "$fragment") mustStartWith message)))

/-- Modelled from the spec: throwing `assertTextEndsWith`; on failure the
thrown message is the template with `$fragment` replaced by the expected
suffix and `$endedWith` by the last 40 characters of the text. -/
def checkEndsWith (text mustEndWith message : Str) : Option Str :=
  if jsIndexOfFrom text mustEndWith ((text.length : Int) - (mustEndWith.length : Int)) = -1 then
    some (errToString (replaceAll (str "$endedWith") (text.drop (text.length - 40))
      (replaceAll (str "$fragment") mustEndWith message)))
  else none

/-- Modelled from the spec: throwing `assertTextNotContainsAny`; `none` on
success, `some e` with the caught `e.toString()` on failure. -/
def checkNotContainsAny (text : Str) (notToBeFound : StrOrList) (message : Str) : Option Str :=
  match assertTextNotContainsAny text notToBeFound message with
  | (true, _) => none
  | (false, errs) => some (throwMsg (str "assertTextNotContainsAny") errs)

/-! ## HTTPTestsManager (second generation, `HTTPTestsManager.ts` lines 263-502)

The HTTP environment is a function from the (wildcard-substituted) URL to
either the transport error message (`errorCallback`) or the response body
(`successCallback`).  JavaScript falsy/absent optional fields are
represented as `none`. -/

/-- One entry of `assertHttpRequests`. -/
structure HttpEntry where
  url : Str
  postParameters : Option (List (Str × Str))
  contains : Option StrOrList
  startWith : Option Str
  endWith : Option Str
  notContains : Option StrOrList

/-- `JSON.stringify` of a flat string-to-string object, used only to build
the duplicate-identity hash of `assertHttpRequests`. -/
def jsonStringify (ps : List (Str × Str)) : Str :=
  str "\x7b" ++ joinWith (str ",") (ps.map (fun kv =>
    str "\"" ++ kv.1 ++ str "\":\"" ++ kv.2 ++ str "\"")) ++ str "\x7d"

/-- The duplicate-identity hash of one entry: the URL, with the serialized
POST parameters appended when present and nonempty. -/
def hashOfEntry (e : HttpEntry) : Str :=
  match e.postParameters with
  | some ps => if 0 < ps.length then e.url ++ jsonStringify ps else e.url
  | none => e.url

/-- The failure messages one entry of `assertHttpRequests` contributes: the
transport-error message on a failed request, otherwise the caught
`e.toString()` of each failing body check, in source order. -/
def entryFailures (wc : List (Str × Str)) (responses : Str → Except Str Str)
    (e : HttpEntry) : List Str :=
  let url' := replaceWildCardsOnText e.url wc
  match responses url' with
  | .error errorMsg => [str "Could not load url: " ++ url' ++ nl ++ errorMsg]
  | .ok response =>
      (match e.contains.map (replaceWildCardsOnObject · wc) with
       | none => []
       | some c => (checkContainsAll response c
           (str "Response expected to contain: $fragment" ++ nl
             ++ str "But not contained it for the url: " ++ url')).toList)
      ++ (match e.startWith with
          | none => []
          | some sw => (checkStartsWith response sw
              (str "Response expected to start with: $fragment" ++ nl
                ++ str "But started with: $startedWith" ++ nl
                ++ str "For the url: " ++ url')).toList)
      ++ (match e.endWith with
          | none => []
          | some ew => (checkEndsWith response ew
              (str "Response expected to end with: $fragment" ++ nl
                ++ str "But ended with: $endedWith" ++ nl
                ++ str "For the url: " ++ url')).toList)
      ++ (match e.notContains with
          | none => []
          | some ncs => (checkNotContainsAny response ncs
              (str "Response NOT expected to contain: $fragment" ++ nl
                ++ str "But contained it for the url: " ++ url')).toList)

/-- The aggregate-error header of `assertHttpRequests`; the source
interpolates the error array itself (`${anyErrors}`, a comma join), not its
length. -/
def httpFailHeader (errs : List Str) : Str :=
  str "HTTPTestsManager.assertHttpRequests failed with " ++ joinWith (str ",") errs
    ++ str " errors:" ++ nl

/-- The `recursiveCaller` of `assertHttpRequests`, threading the
accumulated `anyErrors` list; at the end it throws the aggregate error or
invokes the completion callback (`Except.ok ()`). -/
def assertHttpRequestsRec (wc : List (Str × Str)) (responses : Str → Except Str Str) :
    List HttpEntry → List Str → List Str × Except Str Unit
  | [], acc =>
      (acc, if acc.isEmpty then Except.ok ()
            else Except.error (httpFailHeader acc ++ joinWith nl acc))
  | e :: rest, acc =>
      assertHttpRequestsRec wc responses rest (acc ++ entryFailures wc responses e)

/-- `HTTPTestsManager.assertHttpRequests`: duplicate identities are rejected
up front, then all entries are processed sequentially. -/
def assertHttpRequests (wc : List (Str × Str)) (responses : Str → Except Str Str)
    (entries : List HttpEntry) : List Str × Except Str Unit :=
  if hasDuplicateElements (entries.map hashOfEntry) then
    ([], Except.error (str "HTTPTestsManager.assertHttpRequests duplicate urls: "
        ++ joinWith nl (getDuplicateElements (entries.map (·.url)))))
  else assertHttpRequestsRec wc responses entries []

theorem assertHttpRequestsRec_eq (wc : List (Str × Str)) (responses : Str → Except Str Str) :
    ∀ (es : List HttpEntry) (acc : List Str),
      assertHttpRequestsRec wc responses es acc
        = (acc ++ es.flatMap (entryFailures wc responses),
           if (acc ++ es.flatMap (entryFailures wc responses)).isEmpty then Except.ok ()
           else Except.error
             (httpFailHeader (acc ++ es.flatMap (entryFailures wc responses))
               ++ joinWith nl (acc ++ es.flatMap (entryFailures wc responses)))) := by
  intro es
  induction es with
  | nil => intro acc; simp [assertHttpRequestsRec]
  | cons e rest ih =>
      intro acc
      simp only [assertHttpRequestsRec, ih, List.flatMap_cons, List.append_assoc]

theorem prefix_drop_of_firstIndexOf (pat : Str) :
    ∀ (s : Str) (i : Nat), firstIndexOf pat s = some i → pat.isPrefixOf (s.drop i) := by
  intro s
  induction s with
  | nil =>
      intro i h
      by_cases hp : pat.isPrefixOf ([] : Str)
      · simp only [firstIndexOf, hp, if_true, Option.some.injEq] at h
        subst h; simpa using hp
      · simp [firstIndexOf, hp] at h
  | cons c rest ih =>
      intro i h
      by_cases hp : pat.isPrefixOf (c :: rest)
      · simp only [firstIndexOf, hp, if_true, Option.some.injEq] at h
        subst h; simpa using hp
      · simp only [firstIndexOf, hp, if_false, Bool.false_eq_true, Option.map_eq_some'] at h
        obtain ⟨j, hj, hij⟩ := h
        subst hij
        simpa using ih j hj

theorem firstIndexOf_isSome_of_prefix_drop (pat : Str) :
    ∀ (s : Str) (i : Nat), pat.isPrefixOf (s.drop i) → (firstIndexOf pat s).isSome := by
  intro s
  induction s with
  | nil =>
      intro i h
      simp only [List.drop_nil] at h
      simp [firstIndexOf, h]
  | cons c rest ih =>
      intro i h
      by_cases hp : pat.isPrefixOf (c :: rest)
      · simp [firstIndexOf, hp]
      · cases i with
        | zero => simp only [List.drop_zero] at h; exact absurd h hp
        | succ j =>
            simp only [List.drop_succ_cons] at h
            have := ih j h
            simp only [firstIndexOf, hp, if_false, Bool.false_eq_true]
            cases hx : firstIndexOf pat rest with
            | none => rw [hx] at this; simp at this
            | some k => simp [hx]

theorem occursB_iff_isInfix (s pat : Str) : occursB s pat = true ↔ pat <:+: s := by
  constructor
  · intro h
    unfold occursB at h
    obtain ⟨i, hi⟩ := Option.isSome_iff_exists.mp h
    have hpre : pat <+: s.drop i :=
      List.isPrefixOf_iff_prefix.mp (prefix_drop_of_firstIndexOf pat s i hi)
    exact hpre.isInfix.trans (List.drop_suffix i s).isInfix
  · rintro ⟨p, q, rfl⟩
    unfold occursB
    refine firstIndexOf_isSome_of_prefix_drop pat _ p.length ?_
    rw [List.append_assoc, List.drop_left]
    exact List.isPrefixOf_iff_prefix.mpr (List.prefix_append pat q)

/-- C1: with no duplicate identities, `assertHttpRequests` processes every
entry (the failure list is the in-order concatenation of every entry's own
failures, regardless of earlier failures); if no failure was recorded it
invokes the completion callback, and otherwise it raises exactly one
combined error whose message contains every individual failure message in
encounter order. -/
theorem assertHttpRequests_processes_all_and_aggregates
    (wc : List (Str × Str)) (responses : Str → Except Str Str) (entries : List HttpEntry)
    (hnodup : hasDuplicateElements (entries.map hashOfEntry) = false) :
    (assertHttpRequests wc responses entries).1
        = entries.flatMap (entryFailures wc responses) ∧
    ((assertHttpRequests wc responses entries).1 = [] →
        (assertHttpRequests wc responses entries).2 = Except.ok ()) ∧
    ((assertHttpRequests wc responses entries).1 ≠ [] →
        ∃ m, (assertHttpRequests wc responses entries).2 = Except.error m ∧
          AppearsInOrder (assertHttpRequests wc responses entries).1 m) := by
  unfold assertHttpRequests
  rw [hnodup]
  simp only [Bool.false_eq_true, if_false, assertHttpRequestsRec_eq, List.nil_append]
  refine ⟨by trivial, ?_, ?_⟩
  · intro h; simp [h]
  · intro h
    rw [if_neg (by simpa [List.isEmpty_iff] using h)]
    exact ⟨_, rfl, appearsInOrder_append_joinWith nl _ (httpFailHeader _)⟩

/-- Witness for `assertHttpRequests_processes_all_and_aggregates`: a
two-entry list in which the first entry fails a body check and the second
fails at transport level; both failures are collected. -/
theorem assertHttpRequests_processes_all_and_aggregates_witness :
    (assertHttpRequests []
        (fun u => if u = str "a" then Except.ok (str "hello") else Except.error (str "boom"))
        [⟨str "a", none, some (.s (str "ZZZ")), none, none, none⟩,
         ⟨str "b", none, none, none, none, none⟩]).1
      = [⟨str "a", none, some (.s (str "ZZZ")), none, none, none⟩,
         ⟨str "b", none, none, none, none, none⟩].flatMap
          (entryFailures []
            (fun u => if u = str "a" then Except.ok (str "hello") else Except.error (str "boom"))) :=
  (assertHttpRequests_processes_all_and_aggregates []
    (fun u => if u = str "a" then Except.ok (str "hello") else Except.error (str "boom"))
    [⟨str "a", none, some (.s (str "ZZZ")), none, none, none⟩,
     ⟨str "b", none, none, none, none, none⟩] (by decide)).1

/-! ## C6: `assertUrlsFail` (second generation, lines 321-364) -/

/-- The failure message `assertUrlsFail` records for a URL that loaded with
200 ok. -/
def urlFailMsg (url : Str) : Str :=
  str "URL expected to fail with 404 but was 200 ok: " ++ url

/-- The aggregate-error header of `assertUrlsFail` (this one interpolates
`anyErrors.length`). -/
def urlsFailHeader (errs : List Str) : Str :=
  str "AutomatedBrowserManager.assertUrlsFail failed with " ++ natToStr errs.length
    ++ str " errors:" ++ nl

/-- The `recursiveCaller` of `assertUrlsFail`: `outcome url = true` models
the success callback (the URL loaded with 200 ok), `false` the error
callback. -/
def assertUrlsFailRec (wc : List (Str × Str)) (outcome : Str → Bool) :
    List Str → List Str → List Str × Except Str Unit
  | [], acc =>
      (acc, if acc.isEmpty then Except.ok ()
            else Except.error (urlsFailHeader acc ++ joinWith nl acc))
  | u :: rest, acc =>
      let url := replaceWildCardsOnText u wc
      assertUrlsFailRec wc outcome rest (acc ++ if outcome url then [urlFailMsg url] else [])

/-- `HTTPTestsManager.assertUrlsFail`: duplicate URLs rejected up front,
then all URLs tested sequentially. -/
def assertUrlsFail (wc : List (Str × Str)) (outcome : Str → Bool) (urls : List Str) :
    List Str × Except Str Unit :=
  if hasDuplicateElements urls then
    ([], Except.error (str "AutomatedBrowserManager.assertUrlsFail duplicate urls: "
        ++ joinWith nl (getDuplicateElements urls)))
  else assertUrlsFailRec wc outcome urls []

theorem assertUrlsFailRec_eq (wc : List (Str × Str)) (outcome : Str → Bool) :
    ∀ (urls : List Str) (acc : List Str),
      assertUrlsFailRec wc outcome urls acc
        = (acc ++ urls.flatMap (fun u =>
              if outcome (replaceWildCardsOnText u wc)
              then [urlFailMsg (replaceWildCardsOnText u wc)] else []),
           if (acc ++ urls.flatMap (fun u =>
              if outcome (replaceWildCardsOnText u wc)
              then [urlFailMsg (replaceWildCardsOnText u wc)] else [])).isEmpty
           then Except.ok ()
           else Except.error
             ((urlsFailHeader (acc ++ urls.flatMap (fun u =>
                if outcome (replaceWildCardsOnText u wc)
                then [urlFailMsg (replaceWildCardsOnText u wc)] else [])))
               ++ joinWith nl (acc ++ urls.flatMap (fun u =>
                if outcome (replaceWildCardsOnText u wc)
                then [urlFailMsg (replaceWildCardsOnText u wc)] else [])))) := by
  intro urls
  induction urls with
  | nil => intro acc; simp [assertUrlsFailRec]
  | cons u rest ih =>
      intro acc
      simp only [assertUrlsFailRec, ih, List.flatMap_cons, List.append_assoc]

/-- C6 counterexample: the failure recorded for a 200-ok URL is
`URL expected to fail with 404 but was 200 ok: <url>`; it does not contain
the claim's quoted text `expected to fail but was 200 ok`. -/
theorem assertUrlsFail_message_counterexample :
    (assertUrlsFail [] (fun _ => true) [str "u"]).1 = [urlFailMsg (str "u")] ∧
    occursB (urlFailMsg (str "u")) (str "expected to fail but was 200 ok") = false := by
  decide

/-- C6 (amended): for every URL whose request succeeds with 200 ok,
`assertUrlsFail` records a failure whose message contains the text
`expected to fail with 404 but was 200 ok` and the URL; URLs whose request
fails record nothing; and when no failure was recorded the whole call
invokes the completion callback.  If failures exist, one combined error is
raised containing all of them in order. -/
theorem assertUrlsFail_spec (wc : List (Str × Str)) (outcome : Str → Bool) (urls : List Str)
    (hnodup : hasDuplicateElements urls = false) :
    (assertUrlsFail wc outcome urls).1
        = urls.flatMap (fun u =>
            if outcome (replaceWildCardsOnText u wc)
            then [urlFailMsg (replaceWildCardsOnText u wc)] else []) ∧
    (∀ u : Str,
        occursB (urlFailMsg u) (str "expected to fail with 404 but was 200 ok") = true ∧
        occursB (urlFailMsg u) u = true) ∧
    ((assertUrlsFail wc outcome urls).1 = [] →
        (assertUrlsFail wc outcome urls).2 = Except.ok ()) ∧
    ((assertUrlsFail wc outcome urls).1 ≠ [] →
        ∃ m, (assertUrlsFail wc outcome urls).2 = Except.error m ∧
          AppearsInOrder (assertUrlsFail wc outcome urls).1 m) := by
  unfold assertUrlsFail
  rw [hnodup]
  simp only [Bool.false_eq_true, if_false, assertUrlsFailRec_eq, List.nil_append]
  refine ⟨by trivial, ?_, ?_, ?_⟩
  · intro u
    constructor
    · refine (occursB_iff_isInfix _ _).mpr ?_
      refine List.IsInfix.trans ?_
        (List.prefix_append (str "URL expected to fail with 404 but was 200 ok: ") u).isInfix
      exact (occursB_iff_isInfix _ _).mp (by decide)
    · exact (occursB_iff_isInfix _ _).mpr (List.suffix_append _ u).isInfix
  · intro h; simp [h]
  · intro h
    rw [if_neg (by simpa [List.isEmpty_iff] using h)]
    exact ⟨_, rfl, appearsInOrder_append_joinWith nl _ (urlsFailHeader _)⟩

/-- Witness for `assertUrlsFail_spec`: one URL loads 200 ok (and records a
failure) and one fails (and records nothing). -/
theorem assertUrlsFail_spec_witness :
    (assertUrlsFail [] (fun u => u == str "a") [str "a", str "b"]).1
      = [str "a", str "b"].flatMap (fun u =>
          if (fun u => u == str "a") (replaceWildCardsOnText u [])
          then [urlFailMsg (replaceWildCardsOnText u [])] else []) :=
  (assertUrlsFail_spec [] (fun u => u == str "a") [str "a", str "b"] (by decide)).1

/-! ## AutomatedBrowserManager (second generation, `src/unnamed/part_002`)

`assertBrowserState` is modelled as a pure function of the orchestrator
instance state, the typed asserts record and a browser environment holding
everything the nested driver callbacks would observe.  The asserts record
carries, next to its typed fields, the JavaScript object's own key list
(`objectKeys`, in enumeration order), which is what
`ObjectTestsManager.assertObjectProperties` inspects. -/

/-- One browser console log entry (level name and message). -/
structure LogEntry where
  levelName : Str
  message : Str
deriving DecidableEq

/-- The `ignoreConsoleErrors` field of an asserts record: absent, literally
`true`, or an array of ignore substrings. -/
inductive IgnoreCE where
  | absent
  | flagTrue
  | list (l : List Str)

/-- A JavaScript `RegExp` value: its `toString()` rendering and its `test`
predicate (the regular-expression engine itself is external). -/
structure RegExpM where
  pattern : Str
  test : Str → Bool

/-- The asserts record accepted by `assertBrowserState`.  A field that is
absent or `null` (the source treats both alike via
`hasOwnProperty(k) && asserts.k !== null`) is `none`. -/
structure BrowserAsserts where
  objectKeys : List Str
  url : Option Str
  titleContains : Option StrOrList
  ignoreConsoleErrors : IgnoreCE
  sourceHtmlStartsWith : Option Str
  sourceHtmlEndsWith : Option Str
  sourceHtmlNotContains : Option StrOrList
  sourceHtmlContains : Option StrOrList
  sourceHtmlRegExp : Option RegExpM
  loadedHtmlStartsWith : Option Str
  loadedHtmlEndsWith : Option Str
  loadedHtmlNotContains : Option StrOrList
  loadedHtmlContains : Option StrOrList
  loadedHtmlRegExp : Option RegExpM
  tabsCount : Option Nat

/-- The orchestrator instance state read by `assertBrowserState`. -/
structure ABMState where
  wildcards : List (Str × Str)
  ignoreConsoleErrors : List Str
  logEntries : List LogEntry

/-- The browser/network environment one `assertBrowserState` call observes:
current URL and title, the result of the second console-log drain, the
live-DOM serialization, the open window handles count, the local-file read
of the current URL (empty when the read failed, as the source leaves
`urlLocalFileContents = ''` on exception) and the HTTP GET outcome
(`errorCallback` receives message and code). -/
structure BrowserEnv where
  browserUrl : Str
  browserTitle : Str
  secondDrain : List LogEntry
  loadedHtml : Str
  windowHandles : Nat
  localFileContents : Str
  httpResult : Except (Str × Int) Str

/-- The observable result of one `assertBrowserState` call. -/
structure ABMResult where
  errors : List Str
  fetchedSource : Bool
  logEntriesAfter : List LogEntry
  outcome : Except Str Unit

/-- The recognized key set of `assertBrowserState`, in source order. -/
def recognizedBrowserStateKeys : List Str :=
  [str "url", str "titleContains", str "ignoreConsoleErrors", str "sourceHtmlContains",
   str "sourceHtmlRegExp", str "sourceHtmlStartsWith", str "sourceHtmlEndsWith",
   str "sourceHtmlNotContains", str "loadedHtmlStartsWith", str "loadedHtmlEndsWith",
   str "loadedHtmlContains", str "loadedHtmlRegExp", str "loadedHtmlNotContains",
   str "tabsCount"]

/-- The `Object has unexpected key` message of `assertObjectProperties`. -/
def unexpectedKeyMsg (k : Str) : Str :=
  str "ObjectTestsManager.assertObjectProperties failed. Object has unexpected key: " ++ k

/-- `ObjectTestsManager.assertObjectProperties`: in strict mode every
allowed key must appear on the object (throw on the first missing one);
in both modes every object key must be allowed (throw on the first
unexpected one). -/
def assertObjectProperties (objectKeys keys : List Str) (strict : Bool) : Except Str Unit :=
  match (if strict then keys.find? (fun k => !(objectKeys.contains k)) else none) with
  | some k => Except.error (str "ObjectTestsManager.assertObjectProperties failed. key <" ++ k
      ++ str "> was not found on the object")
  | none =>
      match objectKeys.find? (fun k => !(keys.contains k)) with
      | some k => Except.error (unexpectedKeyMsg k)
      | none => Except.ok ()

/-- JavaScript template-literal rendering of a `string | string[]` value
(an array joins with commas). -/
def strOrListToStr : StrOrList → Str
  | .s v => v
  | .l vs => joinWith (str ",") vs

/-- The `validateHtml` closure of `assertBrowserState`: run the five
html checks in source order against the given html, collecting the caught
`e.toString()` strings and the regexp diagnostic. -/
def validateHtml (wc : List (Str × Str)) (html url : Str)
    (startsWith endsWith : Option Str) (notContains contains : Option StrOrList)
    (regExp : Option RegExpM) : List Str :=
  (match startsWith with
   | none => []
   | some sw => (checkStartsWith html sw
       (str "Source expected to start with: $fragment" ++ nl
         ++ str "But started with: $startedWith" ++ nl ++ str "For the url: " ++ url)).toList)
  ++ (match endsWith with
      | none => []
      | some ew => (checkEndsWith html ew
          (str "Source expected to end with: $fragment" ++ nl
            ++ str "But ended with: $endedWith" ++ nl ++ str "For the url: " ++ url)).toList)
  ++ (match notContains with
      | none => []
      | some ncs => (checkNotContainsAny html ncs
          (str "Source NOT expected to contain: $fragment" ++ nl
            ++ str "But contained it for the url: " ++ url)).toList)
  ++ (match contains with
      | none => []
      | some c => (checkContainsAll html (replaceWildCardsOnObject c wc)
          (nl ++ str "Error searching for: $fragment on text in the url: " ++ url
            ++ nl ++ str "$errorMsg" ++ nl)).toList)
  ++ (match regExp with
      | none => []
      | some r =>
          if r.test html then []
          else [nl ++ str "Source does not match rexExp:" ++ nl ++ r.pattern
                  ++ nl ++ str "for the url: " ++ url])

/-- The console-error failure message of `assertBrowserState`. -/
def consoleErrMsg (message url : Str) : Str :=
  str "Browser console has shown an error:" ++ nl ++ str "    " ++ message ++ nl
    ++ str "For the url:" ++ nl ++ str "    " ++ url

/-- Whether the `ignoreConsoleErrors` field is an array. -/
def isIgnoreList : IgnoreCE → Bool
  | .list _ => true
  | _ => false

/-- The list the source's inner ignore loop walks:
`this.ignoreConsoleErrors.concat(asserts.ignoreConsoleErrors)`.  When the
asserts record has no such field, `concat(undefined)` appends one
`undefined` element, and `String.prototype.indexOf` then stringifies it, so
the literal text `undefined` is searched for.  (The `flagTrue` case is
unreachable: the whole console check is skipped then.) -/
def ignoreSearchList (instList : List Str) : IgnoreCE → List Str
  | .list l => instList ++ l
  | .absent => instList ++ [str "undefined"]
  | .flagTrue => instList

/-- The console-log check of `assertBrowserState` (lines 540-569 of the
source): skipped entirely when `ignoreConsoleErrors` is literally `true`;
otherwise every `SEVERE` entry of the stored `logEntries` produces a
failure unless the ignore loop runs (instance list nonempty, or the field
is an array) and some searched string occurs in the entry's message. -/
def severeConsoleErrors (inst : ABMState) (ice : IgnoreCE) (browserUrl : Str) : List Str :=
  match ice with
  | .flagTrue => []
  | x =>
      inst.logEntries.flatMap (fun le =>
        if le.levelName = str "SEVERE" then
          if (!inst.ignoreConsoleErrors.isEmpty || isIgnoreList x)
              && (ignoreSearchList inst.ignoreConsoleErrors x).any
                   (fun s => occursB le.message s) then []
          else [consoleErrMsg le.message browserUrl]
        else [])

/-- The aggregate-error header of `assertBrowserState`. -/
def browserStateHeader (errs : List Str) : Str :=
  str "AutomatedBrowserManager.assertBrowserState failed with " ++ natToStr errs.length
    ++ str " errors:" ++ nl

/-- The `finish` closure: throw the aggregate error, or invoke the
completion callback. -/
def finishOutcome (errs : List Str) : Except Str Unit :=
  if errs.isEmpty then Except.ok ()
  else Except.error (browserStateHeader errs ++ joinWith nl errs)

/-- The key-validation errors of `assertBrowserState` (the caught
`e.toString()` of `assertObjectProperties`, called with `strict = false`). -/
def browserStateKeyErrs (asserts : BrowserAsserts) : List Str :=
  match assertObjectProperties asserts.objectKeys recognizedBrowserStateKeys false with
  | Except.ok _ => []
  | Except.error m => [errToString m]

/-- All non-key, non-source checks of `assertBrowserState`, in source
order: current url, mandatory 404-title check, `titleContains`, console
log, loaded-html checks, `tabsCount`. -/
def browserStateOtherErrs (inst : ABMState) (asserts : BrowserAsserts) (env : BrowserEnv) :
    List Str :=
  (match asserts.url with
   | none => []
   | some u => (checkContainsAll env.browserUrl
       (.s (replaceWildCardsOnText u inst.wildcards))
       (str "Browser URL: " ++ env.browserUrl ++ nl
         ++ str "Does not contain expected text: $fragment")).toList)
  ++ (checkNotContainsAny env.browserTitle (.l [str "404 Not Found", str "Error 404 page"])
       (str "Unexpected 404 error found on browser title:" ++ nl ++ str "    "
         ++ env.browserTitle ++ nl ++ str "For the url:" ++ nl ++ str "    "
         ++ env.browserUrl)).toList
  ++ (match asserts.titleContains with
      | none => []
      | some t => (checkContainsAll env.browserTitle t
          (str "Title: " ++ env.browserTitle ++ nl ++ str "Does not contain expected text: "
            ++ strOrListToStr t ++ nl ++ str "For the url: " ++ env.browserUrl)).toList)
  ++ severeConsoleErrors inst asserts.ignoreConsoleErrors env.browserUrl
  ++ validateHtml inst.wildcards env.loadedHtml env.browserUrl
      asserts.loadedHtmlStartsWith asserts.loadedHtmlEndsWith asserts.loadedHtmlNotContains
      asserts.loadedHtmlContains asserts.loadedHtmlRegExp
  ++ (match asserts.tabsCount with
      | none => []
      | some n =>
          if n ≠ env.windowHandles then
            [str "Browser tabs count (" ++ natToStr env.windowHandles
              ++ str ") must be: " ++ natToStr n]
          else [])

/-- The original-source checks of `assertBrowserState`: validate the local
file contents when the read produced something, otherwise the HTTP GET
outcome. -/
def browserStateSourceErrs (inst : ABMState) (asserts : BrowserAsserts) (env : BrowserEnv) :
    List Str :=
  if env.localFileContents ≠ [] then
    validateHtml inst.wildcards env.localFileContents env.browserUrl
      asserts.sourceHtmlStartsWith asserts.sourceHtmlEndsWith asserts.sourceHtmlNotContains
      asserts.sourceHtmlContains asserts.sourceHtmlRegExp
  else
    match env.httpResult with
    | Except.error (errorMsg, errorCode) =>
        [str "Could not load url: " ++ env.browserUrl ++ nl ++ str "Error code: "
          ++ intToStr errorCode ++ nl ++ errorMsg]
    | Except.ok html =>
        validateHtml inst.wildcards html env.browserUrl
          asserts.sourceHtmlStartsWith asserts.sourceHtmlEndsWith asserts.sourceHtmlNotContains
          asserts.sourceHtmlContains asserts.sourceHtmlRegExp

/-- `AutomatedBrowserManager.assertBrowserState`.  The second console-log
drain is concatenated to `logEntries` but the result is discarded, exactly
as in the source (`this.logEntries.concat(browserLogs);` on line 538).  The
decision whether to fetch the original source reproduces the source's
condition verbatim: its last two clauses are joined by a comma (not `&&`),
so the JavaScript comma operator makes the whole condition equal to its
last clause, and the fetch is skipped exactly when `sourceHtmlRegExp` is
absent or null. -/
def assertBrowserState (inst : ABMState) (asserts : BrowserAsserts) (env : BrowserEnv) :
    ABMResult :=
  let _discardedConcat := inst.logEntries ++ env.secondDrain
  let baseErrs := browserStateKeyErrs asserts ++ browserStateOtherErrs inst asserts env
  if asserts.sourceHtmlRegExp.isNone then
    { errors := baseErrs, fetchedSource := false, logEntriesAfter := inst.logEntries,
      outcome := finishOutcome baseErrs }
  else
    let allErrs := baseErrs ++ browserStateSourceErrs inst asserts env
    { errors := allErrs, fetchedSource := true, logEntriesAfter := inst.logEntries,
      outcome := finishOutcome allErrs }

/-- An asserts record with no key and no field set. -/
def emptyAsserts : BrowserAsserts :=
  { objectKeys := [], url := none, titleContains := none, ignoreConsoleErrors := .absent,
    sourceHtmlStartsWith := none, sourceHtmlEndsWith := none, sourceHtmlNotContains := none,
    sourceHtmlContains := none, sourceHtmlRegExp := none, loadedHtmlStartsWith := none,
    loadedHtmlEndsWith := none, loadedHtmlNotContains := none, loadedHtmlContains := none,
    loadedHtmlRegExp := none, tabsCount := none }

/-- A plain environment: an unremarkable page with one tab. -/
def plainEnv : BrowserEnv :=
  { browserUrl := str "http://localhost/a.html", browserTitle := str "Home",
    secondDrain := [], loadedHtml := str "<html></html>", windowHandles := 1,
    localFileContents := [], httpResult := Except.ok (str "<html></html>") }

/-! ## C7: `assertUrlsRedirect` (lines 731-772 of `src/unnamed/part_002`) -/

/-- One entry of `assertUrlsRedirect`: `toUrl` models the source's `to`
property (the optional informative `comment` field is never read by the
implementation). -/
structure RedirectEntry where
  url : Str
  toUrl : Str

/-- The failure message `assertUrlsRedirect` records for a wrong final
URL. -/
def redirectFailMsg (url toUrl finalUrl : Str) : Str :=
  str "Url redirect failed. expected:" ++ nl ++ str "    " ++ url
    ++ (str " to redirect to:" ++ nl ++ str "    " ++ toUrl
        ++ (str " but was:" ++ nl ++ str "    " ++ finalUrl))

/-- The aggregate-error header of `assertUrlsRedirect`. -/
def redirectHeader (errs : List Str) : Str :=
  str "failed with " ++ natToStr errs.length ++ str " errors:" ++ nl

/-- The `recursiveCaller` of `assertUrlsRedirect`: `nav url` is the final
browser URL that `loadUrl` reports after navigating to the substituted
`url`.  The test is the source's verbatim ends-with idiom
`finalUrl.indexOf(to, finalUrl.length - to.length) === -1`. -/
def assertUrlsRedirectRec (wc : List (Str × Str)) (nav : Str → Str) :
    List RedirectEntry → List Str → List Str × Except Str Unit
  | [], acc =>
      (acc, if acc.isEmpty then Except.ok ()
            else Except.error (redirectHeader acc ++ joinWith nl acc))
  | e :: rest, acc =>
      let url := replaceWildCardsOnText e.url wc
      let toUrl := replaceWildCardsOnText e.toUrl wc
      let finalUrl := nav url
      assertUrlsRedirectRec wc nav rest
        (acc ++ if jsIndexOfFrom finalUrl toUrl
                    ((finalUrl.length : Int) - (toUrl.length : Int)) = -1
                then [redirectFailMsg url toUrl finalUrl] else [])

/-- `AutomatedBrowserManager.assertUrlsRedirect`: duplicate source URLs are
rejected up front, then every entry is navigated and checked. -/
def assertUrlsRedirect (wc : List (Str × Str)) (nav : Str → Str)
    (entries : List RedirectEntry) : List Str × Except Str Unit :=
  if hasDuplicateElements (entries.map (·.url)) then
    ([], Except.error (str "duplicate urls: "
        ++ joinWith nl (getDuplicateElements (entries.map (·.url)))))
  else assertUrlsRedirectRec wc nav entries []

theorem length_le_of_firstIndexOf_isSome (pat s : Str)
    (h : (firstIndexOf pat s).isSome) : pat.length ≤ s.length := by
  obtain ⟨i, hi⟩ := Option.isSome_iff_exists.mp h
  have hpre := List.isPrefixOf_iff_prefix.mp (prefix_drop_of_firstIndexOf pat s i hi)
  calc pat.length ≤ (s.drop i).length := hpre.length_le
    _ ≤ s.length := by simp

/-- The source's ends-with idiom coincides with list-suffix. -/
theorem jsIndexOfFrom_endsWith_iff (text pat : Str) :
    (jsIndexOfFrom text pat ((text.length : Int) - (pat.length : Int)) = -1)
      ↔ ¬ pat <:+ text := by
  by_cases hle : pat.length ≤ text.length
  · have hstart : ((text.length : Int) - (pat.length : Int)).toNat
        = text.length - pat.length := by omega
    unfold jsIndexOfFrom
    rw [hstart]
    cases hfio : firstIndexOf pat (text.drop (text.length - pat.length)) with
    | none =>
        simp only [hfio]
        refine iff_of_true trivial ?_
        intro hsuf
        have heq : pat = text.drop (text.length - pat.length) :=
          List.suffix_iff_eq_drop.mp hsuf
        have hsome : (firstIndexOf pat (text.drop (text.length - pat.length))).isSome := by
          refine firstIndexOf_isSome_of_prefix_drop pat _ 0 ?_
          rw [List.drop_zero]
          exact List.isPrefixOf_iff_prefix.mpr (heq ▸ List.prefix_refl pat)
        rw [hfio] at hsome
        simp at hsome
    | some i =>
        simp only [hfio]
        refine iff_of_false (by omega) (not_not_intro ?_)
        have hpre := List.isPrefixOf_iff_prefix.mp
          (prefix_drop_of_firstIndexOf pat (text.drop (text.length - pat.length)) i hfio)
        by_cases hp0 : pat = []
        · subst hp0; exact List.nil_suffix
        · have hlen := hpre.length_le
          simp only [List.length_drop] at hlen
          have hi0 : i = 0 := by
            have : 0 < pat.length := List.length_pos.mpr hp0
            omega
          subst hi0
          rw [List.drop_zero] at hpre
          have hlens : pat.length = (text.drop (text.length - pat.length)).length := by
            simp; omega
          exact List.suffix_iff_eq_drop.mpr (hpre.eq_of_length hlens)
  · have hstart : ((text.length : Int) - (pat.length : Int)).toNat = 0 := by omega
    unfold jsIndexOfFrom
    rw [hstart]
    cases hfio : firstIndexOf pat (text.drop 0) with
    | none =>
        simp only [hfio]
        refine iff_of_true trivial ?_
        intro hsuf
        exact hle hsuf.length_le
    | some i =>
        exfalso
        refine hle (length_le_of_firstIndexOf_isSome pat text ?_)
        rw [List.drop_zero] at hfio
        simp [hfio]

/-- The failure list one `assertUrlsRedirect` entry contributes. -/
def redirectEntryFail (wc : List (Str × Str)) (nav : Str → Str) (e : RedirectEntry) : List Str :=
  let url := replaceWildCardsOnText e.url wc
  let toUrl := replaceWildCardsOnText e.toUrl wc
  let finalUrl := nav url
  if jsIndexOfFrom finalUrl toUrl ((finalUrl.length : Int) - (toUrl.length : Int)) = -1
  then [redirectFailMsg url toUrl finalUrl] else []

theorem assertUrlsRedirectRec_eq (wc : List (Str × Str)) (nav : Str → Str) :
    ∀ (entries : List RedirectEntry) (acc : List Str),
      assertUrlsRedirectRec wc nav entries acc
        = (acc ++ entries.flatMap (redirectEntryFail wc nav),
           if (acc ++ entries.flatMap (redirectEntryFail wc nav)).isEmpty then Except.ok ()
           else Except.error
             (redirectHeader (acc ++ entries.flatMap (redirectEntryFail wc nav))
               ++ joinWith nl (acc ++ entries.flatMap (redirectEntryFail wc nav)))) := by
  intro entries
  induction entries with
  | nil => intro acc; simp [assertUrlsRedirectRec]
  | cons e rest ih =>
      intro acc
      simp only [assertUrlsRedirectRec, ih, List.flatMap_cons, List.append_assoc,
        redirectEntryFail]

/-- C7: with duplicate source URLs, `assertUrlsRedirect` raises the
duplicate-urls configuration error without navigating anywhere (the result
does not depend on the navigation outcome); otherwise a failure is
recorded for an entry exactly when the final URL does not end with the
substituted `to` value, every failure message contains the substituted
entry url, the expected `to` value and the actual final URL, and the
failures are aggregated over the whole list into one combined error (or
the completion callback is invoked when there are none). -/
theorem assertUrlsRedirect_spec (wc : List (Str × Str)) (nav : Str → Str)
    (entries : List RedirectEntry) :
    (hasDuplicateElements (entries.map (·.url)) = true →
       (∀ nav2 : Str → Str, assertUrlsRedirect wc nav entries
           = assertUrlsRedirect wc nav2 entries) ∧
       ∃ m, (assertUrlsRedirect wc nav entries).2 = Except.error m ∧
         (str "duplicate urls: ").isPrefixOf m = true) ∧
    (hasDuplicateElements (entries.map (·.url)) = false →
       (assertUrlsRedirect wc nav entries).1
           = entries.flatMap (fun e =>
               if (replaceWildCardsOnText e.toUrl wc)
                   <:+ nav (replaceWildCardsOnText e.url wc)
               then []
               else [redirectFailMsg (replaceWildCardsOnText e.url wc)
                       (replaceWildCardsOnText e.toUrl wc)
                       (nav (replaceWildCardsOnText e.url wc))]) ∧
       (∀ u t f : Str,
          occursB (redirectFailMsg u t f) u = true ∧
          occursB (redirectFailMsg u t f) t = true ∧
          occursB (redirectFailMsg u t f) f = true) ∧
       ((assertUrlsRedirect wc nav entries).1 = [] →
          (assertUrlsRedirect wc nav entries).2 = Except.ok ()) ∧
       ((assertUrlsRedirect wc nav entries).1 ≠ [] →
          ∃ m, (assertUrlsRedirect wc nav entries).2 = Except.error m ∧
            AppearsInOrder (assertUrlsRedirect wc nav entries).1 m)) := by
  constructor
  · intro hdup
    constructor
    · intro nav2
      simp [assertUrlsRedirect, hdup]
    · refine ⟨str "duplicate urls: "
          ++ joinWith nl (getDuplicateElements (entries.map (·.url))), ?_, ?_⟩
      · simp [assertUrlsRedirect, hdup]
      · exact List.isPrefixOf_iff_prefix.mpr (List.prefix_append _ _)
  · intro hnodup
    have hfun : redirectEntryFail wc nav = (fun e =>
        if (replaceWildCardsOnText e.toUrl wc) <:+ nav (replaceWildCardsOnText e.url wc)
        then []
        else [redirectFailMsg (replaceWildCardsOnText e.url wc)
                (replaceWildCardsOnText e.toUrl wc)
                (nav (replaceWildCardsOnText e.url wc))]) := by
      funext e
      by_cases hs : (replaceWildCardsOnText e.toUrl wc)
          <:+ nav (replaceWildCardsOnText e.url wc)
      · simp [redirectEntryFail, jsIndexOfFrom_endsWith_iff, hs]
      · simp [redirectEntryFail, jsIndexOfFrom_endsWith_iff, hs]
    unfold assertUrlsRedirect
    rw [hnodup]
    simp only [Bool.false_eq_true, if_false, assertUrlsRedirectRec_eq, List.nil_append]
    refine ⟨by rw [hfun], ?_, ?_, ?_⟩
    · intro u t f
      refine ⟨?_, ?_, ?_⟩
      · exact (occursB_iff_isInfix _ _).mpr
          ⟨str "Url redirect failed. expected:" ++ nl ++ str "    ",
           str " to redirect to:" ++ nl ++ str "    " ++ t
             ++ (str " but was:" ++ nl ++ str "    " ++ f),
           by simp [redirectFailMsg]⟩
      · exact (occursB_iff_isInfix _ _).mpr
          ⟨str "Url redirect failed. expected:" ++ nl ++ str "    " ++ u
             ++ (str " to redirect to:" ++ nl ++ str "    "),
           str " but was:" ++ nl ++ str "    " ++ f,
           by simp [redirectFailMsg]⟩
      · exact (occursB_iff_isInfix _ _).mpr
          ⟨str "Url redirect failed. expected:" ++ nl ++ str "    " ++ u
             ++ (str " to redirect to:" ++ nl ++ str "    " ++ t
                ++ (str " but was:" ++ nl ++ str "    ")), [],
           by simp [redirectFailMsg]⟩
    · intro h; simp [h]
    · intro h
      rw [if_neg (by simpa [List.isEmpty_iff] using h)]
      exact ⟨_, rfl, appearsInOrder_append_joinWith nl _ (redirectHeader _)⟩

/-- Witness for `assertUrlsRedirect_spec`: a successful redirect entry, and
a duplicate-urls rejection. -/
theorem assertUrlsRedirect_spec_witness :
    (assertUrlsRedirect [] (fun _ => str "http://x/b.html")
        [⟨str "a.html", str "b.html"⟩]).1
      = [(⟨str "a.html", str "b.html"⟩ : RedirectEntry)].flatMap (fun e =>
          if (replaceWildCardsOnText e.toUrl [])
              <:+ (fun _ => str "http://x/b.html") (replaceWildCardsOnText e.url [])
          then []
          else [redirectFailMsg (replaceWildCardsOnText e.url [])
                  (replaceWildCardsOnText e.toUrl [])
                  ((fun _ => str "http://x/b.html") (replaceWildCardsOnText e.url []))]) ∧
    ∃ m, (assertUrlsRedirect [] (fun _ => str "b.html")
        [⟨str "a", str "b"⟩, ⟨str "a", str "c"⟩]).2 = Except.error m ∧
      (str "duplicate urls: ").isPrefixOf m = true :=
  ⟨((assertUrlsRedirect_spec [] (fun _ => str "http://x/b.html")
      [⟨str "a.html", str "b.html"⟩]).2 (by decide)).1,
   ((assertUrlsRedirect_spec [] (fun _ => str "b.html")
      [⟨str "a", str "b"⟩, ⟨str "a", str "c"⟩]).1 (by decide)).2⟩

/-! ## C2, C4, C5, C10: `assertBrowserState` theorems -/

instance exceptStrUnitDecEq : DecidableEq (Except Str Unit) := fun a b =>
  match a, b with
  | Except.ok (), Except.ok () => isTrue rfl
  | Except.error x, Except.error y =>
      if h : x = y then isTrue (by rw [h])
      else isFalse (by intro hc; cases hc; exact h rfl)
  | Except.ok (), Except.error _ => isFalse (by intro hc; cases hc)
  | Except.error _, Except.ok () => isFalse (by intro hc; cases hc)

theorem assertBrowserState_outcome_eq (inst : ABMState) (asserts : BrowserAsserts)
    (env : BrowserEnv) :
    (assertBrowserState inst asserts env).outcome
      = finishOutcome ((assertBrowserState inst asserts env).errors) := by
  unfold assertBrowserState
  by_cases hr : asserts.sourceHtmlRegExp.isNone = true <;> simp [hr]

/-- An asserts record carrying one unrecognized key (`bogusField`) next to
a `titleContains` expectation the browser title does not meet. -/
def bogusAsserts : BrowserAsserts :=
  { emptyAsserts with
    objectKeys := [str "bogusField", str "titleContains"],
    titleContains := some (.s (str "EXPECTED")) }

set_option maxRecDepth 8000 in
/-- C2 counterexample: a record with the unrecognized key `bogusField` and
a failing `titleContains` check produces two aggregated failures — the
unexpected-key error first, the title-check failure second — so the other
field checks are performed, contrary to the claim. -/
theorem assertBrowserState_unexpected_key_counterexample :
    (assertBrowserState ⟨[], [], []⟩ bogusAsserts plainEnv).errors.length = 2 ∧
    (assertBrowserState ⟨[], [], []⟩ bogusAsserts plainEnv).errors.head?
      = some (errToString (unexpectedKeyMsg (str "bogusField"))) ∧
    occursB ((assertBrowserState ⟨[], [], []⟩ bogusAsserts plainEnv).errors.getD 1 [])
      (str "Does not contain expected text: EXPECTED") = true := by
  decide

/-- C2 (amended): when the asserts record carries an unrecognized key, the
call fails with an aggregate error whose message names that (first
unrecognized) key; the validation failure is recorded first and the other
field checks are still performed, their failures aggregated behind it. -/
theorem assertBrowserState_unexpected_key_spec
    (inst : ABMState) (asserts : BrowserAsserts) (env : BrowserEnv) (k : Str)
    (hk : asserts.objectKeys.find? (fun key => !(recognizedBrowserStateKeys.contains key))
        = some k) :
    (assertBrowserState inst asserts env).errors
        = errToString (unexpectedKeyMsg k)
            :: (assertBrowserState inst { asserts with objectKeys := [] } env).errors ∧
    ∃ m, (assertBrowserState inst asserts env).outcome = Except.error m ∧
      occursB m (str "Object has unexpected key: " ++ k) = true := by
  have hkeyErrs : browserStateKeyErrs asserts = [errToString (unexpectedKeyMsg k)] := by
    unfold browserStateKeyErrs assertObjectProperties
    rw [if_neg (by decide : ¬ ((false : Bool) = true)), hk]
  have hkeyErrs0 : browserStateKeyErrs { asserts with objectKeys := [] } = [] := rfl
  have herrs : (assertBrowserState inst asserts env).errors
      = errToString (unexpectedKeyMsg k)
          :: (assertBrowserState inst { asserts with objectKeys := [] } env).errors := by
    unfold assertBrowserState
    by_cases hr : asserts.sourceHtmlRegExp.isNone = true <;>
      simp [hr, hkeyErrs, hkeyErrs0] <;> rfl
  refine ⟨herrs, ?_⟩
  have houtcome := assertBrowserState_outcome_eq inst asserts env
  rw [houtcome, herrs]
  unfold finishOutcome
  rw [if_neg (by simp)]
  refine ⟨_, rfl, ?_⟩
  refine (occursB_iff_isInfix _ _).mpr ?_
  have heq : errToString (unexpectedKeyMsg k)
      = str "Error: ObjectTestsManager.assertObjectProperties failed. "
        ++ (str "Object has unexpected key: " ++ k) := by
    unfold errToString unexpectedKeyMsg
    rw [← List.append_assoc, ← List.append_assoc]
    congr 1
  have h1 : (str "Object has unexpected key: " ++ k)
      <:+: errToString (unexpectedKeyMsg k) := by
    rw [heq]
    exact (List.suffix_append _ _).isInfix
  refine h1.trans ?_
  exact infix_of_mem_joinWith nl _ (browserStateHeader _) _ (by simp)

/-- Witness for `assertBrowserState_unexpected_key_spec` at the
counterexample inputs. -/
theorem assertBrowserState_unexpected_key_spec_witness :
    (assertBrowserState ⟨[], [], []⟩ bogusAsserts plainEnv).errors
        = errToString (unexpectedKeyMsg (str "bogusField"))
            :: (assertBrowserState ⟨[], [], []⟩
                  { bogusAsserts with objectKeys := [] } plainEnv).errors ∧
    ∃ m, (assertBrowserState ⟨[], [], []⟩ bogusAsserts plainEnv).outcome = Except.error m ∧
      occursB m (str "Object has unexpected key: " ++ str "bogusField") = true :=
  assertBrowserState_unexpected_key_spec ⟨[], [], []⟩ bogusAsserts plainEnv
    (str "bogusField") (by decide)

/-- An asserts record requesting a `sourceHtmlContains` check but no
`sourceHtmlRegExp`. -/
def c4Asserts : BrowserAsserts :=
  { emptyAsserts with
    objectKeys := [str "sourceHtmlContains"],
    sourceHtmlContains := some (.l [str "MISSING"]) }

/-- The same record with a `sourceHtmlRegExp` added. -/
def c4AssertsR : BrowserAsserts :=
  { c4Asserts with
    objectKeys := [str "sourceHtmlContains", str "sourceHtmlRegExp"],
    sourceHtmlRegExp := some ⟨str "x", fun s => occursB s (str "x")⟩ }

/-- An environment whose original page source does not contain `MISSING`. -/
def c4Env : BrowserEnv := { plainEnv with localFileContents := str "<html>actual</html>" }

set_option maxRecDepth 8000 in
/-- C4: because the last two clauses of the skip condition are joined by a
comma instead of `&&` (JavaScript comma operator, line 596 of the source),
the original-source fetch is governed solely by `sourceHtmlRegExp`.  With
`sourceHtmlContains` present (and failing against the real source) but no
`sourceHtmlRegExp`, no fetch is performed and the call succeeds; adding a
`sourceHtmlRegExp` makes the fetch happen. -/
theorem assertBrowserState_source_fetch_comma_bug :
    (assertBrowserState ⟨[], [], []⟩ c4Asserts c4Env).fetchedSource = false ∧
    (assertBrowserState ⟨[], [], []⟩ c4Asserts c4Env).outcome = Except.ok () ∧
    occursB c4Env.localFileContents (str "MISSING") = false ∧
    (assertBrowserState ⟨[], [], []⟩ c4AssertsR c4Env).fetchedSource = true := by
  decide

set_option maxRecDepth 8000 in
/-- C5: a SEVERE console entry whose message happens to contain the literal
text `undefined` is excused although the asserts record provides no
`ignoreConsoleErrors` list and the instance-wide list (`["aaa"]`) does not
match: `concat(undefined)` appends `undefined`, which `indexOf`
stringifies.  With an empty instance-wide list the same entry is reported,
as the claim prescribes. -/
theorem assertBrowserState_console_undefined_excusal_bug :
    (assertBrowserState ⟨[], [str "aaa"], [⟨str "SEVERE", str "xx undefined yy"⟩]⟩
        emptyAsserts plainEnv).errors = [] ∧
    (assertBrowserState ⟨[], [str "aaa"], [⟨str "SEVERE", str "xx undefined yy"⟩]⟩
        emptyAsserts plainEnv).outcome = Except.ok () ∧
    occursB (str "xx undefined yy") (str "aaa") = false ∧
    (assertBrowserState ⟨[], [], [⟨str "SEVERE", str "xx undefined yy"⟩]⟩
        emptyAsserts plainEnv).errors
      = [consoleErrMsg (str "xx undefined yy") plainEnv.browserUrl] := by
  decide

/-- C10: `assertBrowserState` never changes the stored `logEntries` (the
`concat` result of the second console drain is discarded), and its whole
result is independent of whatever that second drain returns, so only the
entries captured by the most recent `loadUrl` are ever inspected. -/
theorem assertBrowserState_logEntries_frame (inst : ABMState) (asserts : BrowserAsserts)
    (env : BrowserEnv) (drained : List LogEntry) :
    (assertBrowserState inst asserts env).logEntriesAfter = inst.logEntries ∧
    assertBrowserState inst asserts { env with secondDrain := drained }
      = assertBrowserState inst asserts env := by
  constructor
  · unfold assertBrowserState
    by_cases hr : asserts.sourceHtmlRegExp.isNone = true <;> simp [hr]
  · rfl

/-! ## C8: `assertSnapshot` (lines 988-1101 of `src/unnamed/part_002`)

The PNG decoding, the canvas-based region painting and the pixelmatch diff
are external libraries; images are therefore abstract pixel buffers, and
the painting and diff engines are parameters of the model.  The filesystem
is modelled by the baseline-existence flag, the directory predicate and the
decoded baseline image; the writes the call performs are collected in the
result (the diff visualization's pixel content comes from the external
diff engine and is recorded as `none`). -/

/-- A decoded PNG image: dimensions and abstract pixel buffer. -/
structure PNGImage where
  width : Nat
  height : Nat
  data : List Nat
deriving DecidableEq

/-- A rectangular ignore region. -/
structure SnapRegion where
  x : Nat
  y : Nat
  width : Nat
  height : Nat
deriving DecidableEq

/-- The options record of `assertSnapshot`; absent properties are `none`
and are given their defaults by the call (0 allowed differing pixels,
tolerance 0.1 — represented in thousandths as 100 —, no ignore regions). -/
structure SnapOptions where
  maxDifferentPixels : Option Nat
  tolerance : Option Nat
  ignoreRegions : Option (List SnapRegion)

/-- The observable result of one `assertSnapshot` call: the files written
(path and pixel content when it comes from this code) and the outcome. -/
structure SnapResult where
  writes : List (Str × Option PNGImage)
  outcome : Except Str Unit
deriving DecidableEq

/-- turbocommons `StringUtils.getPathExtension`, modelled by its documented
behaviour for forward-slash paths: the characters after the last dot of the
last path element, or empty when there is none. -/
def getPathExtension (p : Str) : Str :=
  let ps := ((p.splitOn '/').getLastD []).splitOn '.'
  if ps.length ≤ 1 then [] else ps.getLastD []

/-- turbocommons `StringUtils.getPath`: the path without its last
element. -/
def getPath (p : Str) : Str := joinWith (str "/") (p.splitOn '/').dropLast

/-- turbocommons `StringUtils.getPathElementWithoutExt`: the last path
element without its extension. -/
def getPathElementWithoutExt (p : Str) : Str :=
  let e := (p.splitOn '/').getLastD []
  let ps := e.splitOn '.'
  if ps.length ≤ 1 then e else joinWith (str ".") ps.dropLast

/-- JavaScript `String.prototype.toLowerCase` (ASCII fragment). -/
def toLowerStr (s : Str) : Str := s.map Char.toLower

/-- The size-mismatch error message of `assertSnapshot`. -/
def sizeMismatchMsg (ow oh nw nh : Nat) (p : Str) : Str :=
  str "Snapshot size mismatch: Expected " ++ natToStr ow ++ str "x" ++ natToStr oh
    ++ str "px, but received " ++ natToStr nw ++ str "x" ++ natToStr nh ++ str "px" ++ nl ++ p

/-- The pixel-mismatch error message of `assertSnapshot`. -/
def snapMismatchMsg (allowed found : Nat) (p : Str) : Str :=
  str "Snapshot mismatch: Allowed " ++ natToStr allowed
    ++ (str " different pixels, but found " ++ natToStr found)
    ++ (nl ++ p ++ nl
        ++ str "Saved new snapshot with ignored regions painted in black and diff file to:"
        ++ nl ++ getPath p ++ nl)

/-- The ignore-region loop of `assertSnapshot`: each region is bounds
checked against the baseline dimensions (a hard error when it exceeds
them), then painted black on both images by the external canvas code
(`paint`). -/
def paintRegions (paint : PNGImage → SnapRegion → PNGImage) (baseW baseH : Nat)
    (snapShotPath : Str) :
    List SnapRegion → PNGImage → PNGImage → Except Str (PNGImage × PNGImage)
  | [], oldS, newS => Except.ok (oldS, newS)
  | r :: rest, oldS, newS =>
      if baseW < r.x + r.width ∨ baseH < r.y + r.height then
        Except.error (str "Specified an ignore region that is bigger than the snapshot"
          ++ nl ++ snapShotPath)
      else paintRegions paint baseW baseH snapShotPath rest (paint oldS r) (paint newS r)

/-- `AutomatedBrowserManager.assertSnapshot`: path validation, first-run
baseline bootstrap, size check, region painting, pixel diff and artifact
writing, in source order.  `baselineExists` is `filesManager.isFile` at the
snapshot path, `oldSnapshot` the decoded baseline, `newSnapshot` the
captured viewport, and `pixelmatch tol a b` the external diff count at
tolerance `tol` (in thousandths). -/
def assertSnapshot (snapShotPath : Str) (opts : SnapOptions) (baselineExists : Bool)
    (isDirectory : Str → Bool) (oldSnapshot newSnapshot : PNGImage)
    (paint : PNGImage → SnapRegion → PNGImage)
    (pixelmatch : Nat → PNGImage → PNGImage → Nat) : SnapResult :=
  let maxDifferentPixels := opts.maxDifferentPixels.getD 0
  let tolerance := opts.tolerance.getD 100
  let ignoreRegions := opts.ignoreRegions.getD []
  if toLowerStr (getPathExtension snapShotPath) ≠ str "png" then
    { writes := [],
      outcome := Except.error (str "Snapshot path must be to a PNG file: " ++ snapShotPath) }
  else if ¬ isDirectory (getPath snapShotPath) then
    { writes := [],
      outcome := Except.error (str "Cannot save snapshot to non existant path: " ++ snapShotPath) }
  else if ¬ baselineExists then
    { writes := [(snapShotPath, some newSnapshot)], outcome := Except.ok () }
  else if oldSnapshot.width ≠ newSnapshot.width ∨ oldSnapshot.height ≠ newSnapshot.height then
    { writes := [],
      outcome := Except.error (sizeMismatchMsg oldSnapshot.width oldSnapshot.height
        newSnapshot.width newSnapshot.height snapShotPath) }
  else
    match paintRegions paint oldSnapshot.width oldSnapshot.height snapShotPath
        ignoreRegions oldSnapshot newSnapshot with
    | Except.error m => { writes := [], outcome := Except.error m }
    | Except.ok (oldP, newP) =>
        let differentPixels := pixelmatch tolerance oldP newP
        if maxDifferentPixels < differentPixels then
          let failSnapshotPath := getPath snapShotPath ++ str "/"
            ++ getPathElementWithoutExt snapShotPath
          { writes := [(failSnapshotPath ++ str "-failedSnapshot.png", some newP),
                       (failSnapshotPath ++ str "-failedSnapshotDiff.png", none)],
            outcome := Except.error (snapMismatchMsg maxDifferentPixels differentPixels
              snapShotPath) }
        else { writes := [], outcome := Except.ok () }

/-- C8: with a valid PNG path inside an existing directory: (a) when no
baseline exists the captured image is written at the path and the call
succeeds, independently of the baseline argument and of the diff engine
(no comparison is performed); (b) when a baseline of different pixel
dimensions exists the call fails with a size-mismatch message, writes
nothing, and is again independent of the diff engine (the failure precedes
any pixel diff); (c) when a baseline of equal dimensions exists and no
ignore regions are given, the call fails exactly when the diff count
exceeds the allowed maximum, in which case the captured image and the diff
image are written next to the baseline and the message reports the allowed
and found counts. -/
theorem assertSnapshot_spec (snapShotPath : Str) (opts : SnapOptions)
    (isDirectory : Str → Bool) (oldSnapshot oldSnapshot2 newSnapshot : PNGImage)
    (paint : PNGImage → SnapRegion → PNGImage)
    (pixelmatch pixelmatch2 : Nat → PNGImage → PNGImage → Nat)
    (hext : toLowerStr (getPathExtension snapShotPath) = str "png")
    (hdir : isDirectory (getPath snapShotPath) = true) :
    (assertSnapshot snapShotPath opts false isDirectory oldSnapshot newSnapshot paint pixelmatch
        = { writes := [(snapShotPath, some newSnapshot)], outcome := Except.ok () } ∧
     assertSnapshot snapShotPath opts false isDirectory oldSnapshot newSnapshot paint pixelmatch
        = assertSnapshot snapShotPath opts false isDirectory oldSnapshot2 newSnapshot
            paint pixelmatch2) ∧
    (oldSnapshot.width ≠ newSnapshot.width ∨ oldSnapshot.height ≠ newSnapshot.height →
       (assertSnapshot snapShotPath opts true isDirectory oldSnapshot newSnapshot paint
           pixelmatch).writes = [] ∧
       (assertSnapshot snapShotPath opts true isDirectory oldSnapshot newSnapshot paint
           pixelmatch).outcome
         = Except.error (sizeMismatchMsg oldSnapshot.width oldSnapshot.height
             newSnapshot.width newSnapshot.height snapShotPath) ∧
       occursB (sizeMismatchMsg oldSnapshot.width oldSnapshot.height
           newSnapshot.width newSnapshot.height snapShotPath)
           (str "Snapshot size mismatch") = true ∧
       assertSnapshot snapShotPath opts true isDirectory oldSnapshot newSnapshot paint pixelmatch
         = assertSnapshot snapShotPath opts true isDirectory oldSnapshot newSnapshot
             paint pixelmatch2) ∧
    (oldSnapshot.width = newSnapshot.width → oldSnapshot.height = newSnapshot.height →
     opts.ignoreRegions = none →
       (opts.maxDifferentPixels.getD 0
           < pixelmatch (opts.tolerance.getD 100) oldSnapshot newSnapshot →
          assertSnapshot snapShotPath opts true isDirectory oldSnapshot newSnapshot paint
              pixelmatch
            = { writes := [(getPath snapShotPath ++ str "/"
                              ++ getPathElementWithoutExt snapShotPath
                              ++ str "-failedSnapshot.png", some newSnapshot),
                           (getPath snapShotPath ++ str "/"
                              ++ getPathElementWithoutExt snapShotPath
                              ++ str "-failedSnapshotDiff.png", none)],
                outcome := Except.error (snapMismatchMsg (opts.maxDifferentPixels.getD 0)
                  (pixelmatch (opts.tolerance.getD 100) oldSnapshot newSnapshot)
                  snapShotPath) } ∧
          occursB (snapMismatchMsg (opts.maxDifferentPixels.getD 0)
              (pixelmatch (opts.tolerance.getD 100) oldSnapshot newSnapshot) snapShotPath)
              (natToStr (opts.maxDifferentPixels.getD 0)) = true ∧
          occursB (snapMismatchMsg (opts.maxDifferentPixels.getD 0)
              (pixelmatch (opts.tolerance.getD 100) oldSnapshot newSnapshot) snapShotPath)
              (natToStr (pixelmatch (opts.tolerance.getD 100) oldSnapshot newSnapshot))
            = true) ∧
       (¬ opts.maxDifferentPixels.getD 0
           < pixelmatch (opts.tolerance.getD 100) oldSnapshot newSnapshot →
          assertSnapshot snapShotPath opts true isDirectory oldSnapshot newSnapshot paint
              pixelmatch
            = { writes := [], outcome := Except.ok () })) := by
  refine ⟨⟨?_, ?_⟩, ?_, ?_⟩
  · simp [assertSnapshot, hext, hdir]
  · simp [assertSnapshot, hext, hdir]
  · intro hdim
    have hd : (oldSnapshot.width ≠ newSnapshot.width
        ∨ oldSnapshot.height ≠ newSnapshot.height) := hdim
    refine ⟨?_, ?_, ?_, ?_⟩
    · simp [assertSnapshot, hext, hdir, hd]
    · simp [assertSnapshot, hext, hdir, hd]
    · have hmsg : sizeMismatchMsg oldSnapshot.width oldSnapshot.height newSnapshot.width
          newSnapshot.height snapShotPath
          = str "Snapshot size mismatch: Expected "
            ++ (natToStr oldSnapshot.width ++ (str "x" ++ (natToStr oldSnapshot.height
              ++ (str "px, but received " ++ (natToStr newSnapshot.width ++ (str "x"
              ++ (natToStr newSnapshot.height ++ (str "px" ++ (nl ++ snapShotPath))))))))) := by
        simp [sizeMismatchMsg]
      rw [hmsg]
      refine (occursB_iff_isInfix _ _).mpr ?_
      refine List.IsInfix.trans ?_ (List.prefix_append _ _).isInfix
      exact (occursB_iff_isInfix _ _).mp (by decide)
    · simp [assertSnapshot, hext, hdir, hd]
  · intro hw hh hreg
    constructor
    · intro hcount
      refine ⟨?_, ?_, ?_⟩
      · simp [assertSnapshot, hext, hdir, hw, hh, hreg, paintRegions, hcount]
      · exact (occursB_iff_isInfix _ _).mpr
          ⟨str "Snapshot mismatch: Allowed ",
           str " different pixels, but found "
             ++ natToStr (pixelmatch (opts.tolerance.getD 100) oldSnapshot newSnapshot)
             ++ (nl ++ snapShotPath ++ nl
                ++ str "Saved new snapshot with ignored regions painted in black and diff file to:"
                ++ nl ++ getPath snapShotPath ++ nl),
           by simp [snapMismatchMsg]⟩
      · exact (occursB_iff_isInfix _ _).mpr
          ⟨str "Snapshot mismatch: Allowed " ++ natToStr (opts.maxDifferentPixels.getD 0)
             ++ str " different pixels, but found ",
           nl ++ snapShotPath ++ nl
             ++ str "Saved new snapshot with ignored regions painted in black and diff file to:"
             ++ nl ++ getPath snapShotPath ++ nl,
           by simp [snapMismatchMsg]⟩
    · intro hcount
      simp [assertSnapshot, hext, hdir, hw, hh, hreg, paintRegions, hcount]

/-- Witness for `assertSnapshot_spec` on concrete 1x1 and 2x1 images with a
diff engine counting unequal pixel buffers. -/
theorem assertSnapshot_spec_witness :
    (assertSnapshot (str "a/s.png") ⟨none, none, none⟩ false (fun _ => true)
        ⟨1, 1, [0]⟩ ⟨1, 1, [1]⟩ (fun i _ => i)
        (fun _ a b => if a.data = b.data then 0 else 1)
      = { writes := [(str "a/s.png", some ⟨1, 1, [1]⟩)], outcome := Except.ok () }) ∧
    ((assertSnapshot (str "a/s.png") ⟨none, none, none⟩ true (fun _ => true)
        ⟨2, 1, [0, 0]⟩ ⟨1, 1, [1]⟩ (fun i _ => i)
        (fun _ a b => if a.data = b.data then 0 else 1)).writes = []) ∧
    (assertSnapshot (str "a/s.png") ⟨none, none, none⟩ true (fun _ => true)
        ⟨1, 1, [0]⟩ ⟨1, 1, [1]⟩ (fun i _ => i)
        (fun _ a b => if a.data = b.data then 0 else 1)
      = { writes := [(str "a/s" ++ str "-failedSnapshot.png", some ⟨1, 1, [1]⟩),
                     (str "a/s" ++ str "-failedSnapshotDiff.png", none)],
          outcome := Except.error (snapMismatchMsg 0 1 (str "a/s.png")) }) := by
  refine ⟨?_, ?_, ?_⟩
  · exact (assertSnapshot_spec (str "a/s.png") ⟨none, none, none⟩ (fun _ => true)
      ⟨1, 1, [0]⟩ ⟨1, 1, [0]⟩ ⟨1, 1, [1]⟩ (fun i _ => i)
      (fun _ a b => if a.data = b.data then 0 else 1)
      (fun _ a b => if a.data = b.data then 0 else 1)
      (by decide) rfl).1.1
  · exact ((assertSnapshot_spec (str "a/s.png") ⟨none, none, none⟩ (fun _ => true)
      ⟨2, 1, [0, 0]⟩ ⟨2, 1, [0, 0]⟩ ⟨1, 1, [1]⟩ (fun i _ => i)
      (fun _ a b => if a.data = b.data then 0 else 1)
      (fun _ a b => if a.data = b.data then 0 else 1)
      (by decide) rfl).2.1 (by decide)).1
  · have h := ((assertSnapshot_spec (str "a/s.png") ⟨none, none, none⟩ (fun _ => true)
      ⟨1, 1, [0]⟩ ⟨1, 1, [0]⟩ ⟨1, 1, [1]⟩ (fun i _ => i)
      (fun _ a b => if a.data = b.data then 0 else 1)
      (fun _ a b => if a.data = b.data then 0 else 1)
      (by decide) rfl).2.2 rfl rfl rfl).1 (by decide)
    exact h.1.trans (by decide)
